import Mathlib

/-!
Verification development for the dependency_img_build container build system.

The Python sources are shallowly embedded as Lean definitions:

* `config.py` — the layer data model (`LayerType`, `Layer`, `calculate_hash`,
  the dataclass post-init that fills the `hash` field);
* `build_orchestrator.py` — the `_slugify` helper and the keyword-argument
  shape of the `find_optimal_base` call made by `_build_layered`;
* `reuse.py` — `LayerReuseManager.find_optimal_base`: target-set
  construction, candidate scoring by set intersection, winner selection and
  plan emission, plus `generate_cleanup_commands`;
* `container_layer_builder.py` — the commit / flatten tail of
  `ContainerLayerBuilder.build_layer` (docker commit with an export+import
  fallback);
* `cli.py` — `cmd_build`: the canonical dependency item list
  (`_collect_dep_items`), the dependency checksum and the sidecar
  short-circuit.

External library calls are abstracted in the standard way: the SHA-256 hex
digest (Python `hashlib.sha256(...).hexdigest()`) is a function parameter
`h : String → String`, so every theorem below holds for the real digest;
reads of the container runtime (image existence) are boolean fields of the
candidate records; file contents are `Option String` arguments.  Python
float scoring is embedded exactly: the score
`100*i − 50*m − 0.01*e (+10000)` is stored multiplied by 100 as the integer
`10000*i − 5000*m − e (+1000000)`, an order-isomorphic rescaling (all
comparisons in the source are between such scores, and the float rounding
error, below 1e-9, can never cross the 0.01 granularity of distinct exact
scores in the ranges the theorems use).
-/

namespace DepImg

/-- Embedding of `config.LayerType` (an enum of layer kinds). -/
inductive LayerType where
  | base
  | apt
  | yum
  | pip
  | script
  | config
  | batch
deriving DecidableEq, Repr

/-- Embedding of the `.value` string of each `config.LayerType` member. -/
def LayerType.value : LayerType → String
  | .base => "base"
  | .apt => "apt"
  | .yum => "yum"
  | .pip => "pip"
  | .script => "script"
  | .config => "config"
  | .batch => "batch"

/-- Embedding of the `config.Layer` dataclass.  The `hash` field is the raw
dataclass field (`Optional[str]`); `mkLayer` below performs the post-init
fill. -/
structure Layer where
  name : String
  type : LayerType
  content : String
  parent : Option String := none
  hash : Option String := none
  image_tag : Option String := none
  dependencies : List String := []
deriving DecidableEq, Repr

/-- Embedding of `Layer.calculate_hash`: the first 8 hex characters of the
SHA-256 hex digest of `"{type.value}:{name}:{content}"`.  The digest is the
abstract parameter `h`. -/
def calculate_hash (h : String → String) (l : Layer) : String :=
  (h (l.type.value ++ ":" ++ l.name ++ ":" ++ l.content)).take 8

/-- Embedding of constructing a `config.Layer` followed by its
`__post_init__`: a `None` `dependencies` becomes `[]`, and a `None` `hash`
is replaced by `calculate_hash`. -/
def mkLayer (h : String → String) (name : String) (type : LayerType)
    (content : String) (parent image_tag : Option String)
    (dependencies : Option (List String)) (hash0 : Option String) : Layer :=
  let l : Layer :=
    { name := name, type := type, content := content, parent := parent,
      hash := hash0, image_tag := image_tag,
      dependencies := dependencies.getD [] }
  match hash0 with
  | some _ => l
  | none => { l with hash := some (calculate_hash h l) }

/-- Embedding of the Python per-character test
`c.isalnum() or c in ("-", "_")` used by `BuildOrchestrator._slugify`,
restricted to ASCII characters.  Python `str.isalnum` is Unicode aware and
additionally accepts non-ASCII alphanumerics; that part of its behaviour is
outside this model, so theorems about `slugify` only speak about ASCII
input. -/
def py_isalnum (c : Char) : Bool :=
  c.isAlphanum

/-- Per-character keep test of `BuildOrchestrator._slugify` in the source:
`c.isalnum() or c in ("-", "_")`. -/
def slug_keep (c : Char) : Bool :=
  py_isalnum c || c == '-' || c == '_'

/-- Embedding of `BuildOrchestrator._slugify`: keep every character passing
`slug_keep` and replace every other character by `_`. -/
def slugify (s : String) : String :=
  String.mk (s.data.map (fun c => if slug_keep c then c else '_'))

/-- Character class named by the spec for slugification, written from the
words of the spec (`[A-Za-z0-9._-]`): ASCII letters, ASCII digits, dot,
underscore and hyphen.  This definition follows the spec, not the source;
it exists to be compared with `slug_keep`, which is what the source
actually keeps. -/
def spec_slug_class (c : Char) : Bool :=
  (decide ('A' ≤ c) && decide (c ≤ 'Z')) ||
  (decide ('a' ≤ c) && decide (c ≤ 'z')) ||
  (decide ('0' ≤ c) && decide (c ≤ '9')) ||
  c == '.' || c == '_' || c == '-'

/-! Planner embedding (`reuse.LayerReuseManager.find_optimal_base`). -/

/-- Embedding of the identifier the target loop of `find_optimal_base`
assigns to a layer: `"{type.value}:{content}"` for APT and YUM layers,
`"script:{name}"` for SCRIPT layers, and nothing for every other type
(BASE is skipped, and PIP / CONFIG / BATCH layers take no identifier in
the source). -/
def dep_item (l : Layer) : Option String :=
  match l.type with
  | .apt => some (l.type.value ++ ":" ++ l.content)
  | .yum => some (l.type.value ++ ":" ++ l.content)
  | .script => some ("script:" ++ l.name)
  | _ => none

/-- Embedding of `all_target_layers`: every non-BASE layer, in input
order. -/
def all_target_layers (L : List Layer) : List Layer :=
  L.filter (fun l => !decide (l.type = LayerType.base))

/-- Embedding of `target_set`: the set of identifiers of the non-BASE
layers (only APT / YUM / SCRIPT layers contribute, exactly as in the
source loop). -/
def target_set (L : List Layer) : Finset String :=
  ((all_target_layers L).filterMap dep_item).toFinset

/-- Embedding of a lookup in `target_layer_map`: the map is filled in
input order with overwrites, so a lookup returns the last non-BASE layer
carrying the identifier. -/
def lastLayerWith (L : List Layer) (id : String) : Option Layer :=
  (all_target_layers L).reverse.find? (fun l => dep_item l == some id)

/-- Name of the `target_layer_map` entry for an identifier, defaulting to
the empty string outside the map domain (the source only reads the map
under an explicit membership guard). -/
def nameOfLast (L : List Layer) (id : String) : String :=
  ((lastLayerWith L id).map Layer.name).getD ""

/-- Embedding of the candidate score, multiplied by 100 to stay integral:
the source computes `100*i - 50*m - 0.01*e` and adds `10000` when
`m = 0` (complete-match bonus); this definition returns exactly 100 times
that value. -/
def scoreTimes100 (i m e : Nat) : Int :=
  10000 * i - 5000 * m - e + (if m = 0 then 1000000 else 0)

/-- Score of a candidate set `S` against a target set `T`: the source
takes `i = |T ∩ S|`, `m = |T \ S|`, `e = |S \ T|`. -/
def scoreAgainst100 {α : Type} [DecidableEq α] (T S : Finset α) : Int :=
  scoreTimes100 (T ∩ S).card (T \ S).card (S \ T).card

/-- Candidate image from the planner cache (`image_sets`): the image tag,
the recorded package list, and whether `_image_exists` reports the image
in the local store (a runtime read, modelled as a boolean field). -/
structure Candidate where
  tag : String
  packages : List String
  present : Bool
deriving DecidableEq, Repr

/-- Embedding of `image_tag.split(":", 1)[0]`: the repository part of a
candidate tag, that is the characters before the first colon (the whole
tag when it has no colon). -/
def repoOf (tag : String) : String :=
  String.mk (tag.data.takeWhile (fun c => c != ':'))

/-- Accumulator of the candidate scan: the best score so far (initially
-10000, stored as -1000000 in the times-100 scale), the best image, and
its recorded intersection and missing sets. -/
structure ScanState where
  bestScore : Int
  bestImage : Option String
  bestInter : Finset String
  bestMissing : Finset String

/-- Initial scan state (`best_score = -10000`, no image). -/
def initScan : ScanState :=
  { bestScore := -1000000, bestImage := none, bestInter := ∅, bestMissing := ∅ }

/-- Embedding of one iteration of the candidate loop of
`find_optimal_base`: skip candidates outside the preferred repository,
candidates missing from the local store, and candidates with an empty
package set; otherwise score the candidate and keep it when the score
strictly exceeds the best so far. -/
def evalCandidate (T : Finset String) (preferredRepo : Option String)
    (st : ScanState) (c : Candidate) : ScanState :=
  if (match preferredRepo with
      | none => true
      | some r => repoOf c.tag == r) && c.present then
    if c.packages.toFinset = ∅ then st
    else if st.bestScore < scoreAgainst100 T c.packages.toFinset then
      { bestScore := scoreAgainst100 T c.packages.toFinset,
        bestImage := some c.tag,
        bestInter := T ∩ c.packages.toFinset,
        bestMissing := T \ c.packages.toFinset }
    else st
  else st

/-- Embedding of `image_sets.get(best_image, {}).get("packages", [])`:
the cache is a dict keyed by tag (keys are unique), modelled as a list
looked up by tag. -/
def poolPackages (pool : List Candidate) (tag : String) : List String :=
  ((pool.find? (fun c => c.tag == tag)).map Candidate.packages).getD []

/-- Embedding of the output of `generate_cleanup_commands` by content: the
extra items are partitioned into APT package names (items starting with
`apt:`, prefix stripped) and script names (items starting with `script:`).
The source emits these as a list of descriptor dicts in Python set
iteration order; the order is unspecified, so the embedding keeps the two
sets.  Items with other prefixes (for example `yum:` or `pip:`) are
dropped, exactly as in the source. -/
structure Cleanup where
  aptPackages : Finset String
  scriptNames : Finset String
deriving DecidableEq

/-- Partition of the extra items performed by `generate_cleanup_commands`. -/
def cleanupOf (extra : Finset String) : Cleanup :=
  { aptPackages := (extra.filter (fun it => it.startsWith "apt:")).image (fun it => it.drop 4),
    scriptNames := (extra.filter (fun it => it.startsWith "script:")).image (fun it => it.drop 7) }

/-- Embedding of the `layers_to_build` loop of the plan-emission section:
in the complete-match branch only CONFIG layers are rebuilt; otherwise a
layer is built when it is CONFIG, or when it is APT / YUM / SCRIPT and its
identifier is outside the recorded intersection.  PIP and BATCH layers
fall through every branch of the source loop and are never appended. -/
def plan_build (L : List Layer) (I : Finset String) (complete : Bool) : List Layer :=
  if complete then
    (all_target_layers L).filter (fun l => decide (l.type = LayerType.config))
  else
    (all_target_layers L).filter (fun l =>
      decide (l.type = LayerType.config) ||
      (match dep_item l with
       | some id => decide (id ∉ I)
       | none => false))

/-- Embedding of the `reused_layer_names` computation: in the
complete-match branch the names of all APT / YUM / SCRIPT layers; otherwise
the names of the `target_layer_map` entries of the identifiers in the
recorded intersection (the source guards each lookup by map
membership). -/
def plan_reused (L : List Layer) (I : Finset String) (complete : Bool) : Finset String :=
  if complete then
    (((all_target_layers L).filter (fun l =>
        decide (l.type = LayerType.apt ∨ l.type = LayerType.yum ∨ l.type = LayerType.script))).map
      Layer.name).toFinset
  else
    (I.filter (fun id => (lastLayerWith L id).isSome)).image (fun id => nameOfLast L id)

/-- Result record of `find_optimal_base`: the chosen base image tag, the
reused layer names, the residual layers to build, and the cleanup
descriptors. -/
structure PlanResult where
  base : String
  reused : Finset String
  build : List Layer
  cleanup : Cleanup
deriving DecidableEq

/-- Embedding of the no-suitable-base fallback of `find_optimal_base`: the
content of the first input layer (the hardcoded literal `"ubuntu:22.04"`
when the input list is empty), no reused names, every non-BASE layer to
build, no cleanup. -/
def fallback_plan (L : List Layer) : PlanResult :=
  { base := match L with
      | [] => "ubuntu:22.04"
      | l :: _ => l.content,
    reused := ∅,
    build := all_target_layers L,
    cleanup := { aptPackages := ∅, scriptNames := ∅ } }

/-- Embedding of `LayerReuseManager.find_optimal_base` as a pure function
of the target layers, the optional preferred repository, and the candidate
pool (the `image_sets` cache joined with the `_image_exists` runtime
reads).  The function signature of the source has no tag-prefix
parameter. -/
def find_optimal_base (L : List Layer) (preferredRepo : Option String)
    (pool : List Candidate) : PlanResult :=
  let T := target_set L
  let st := pool.foldl (evalCandidate T preferredRepo) initScan
  match st.bestImage with
  | none => fallback_plan L
  | some img =>
    if st.bestInter = ∅ then fallback_plan L
    else
      let complete := decide (st.bestMissing = ∅)
      let extra := (poolPackages pool img).toFinset \ T
      { base := img,
        reused := plan_reused L st.bestInter complete,
        build := plan_build L st.bestInter complete,
        cleanup := cleanupOf extra }

/-- Plan emission as a function of the chosen candidate package set `C`:
for the winning candidate the recorded intersection is `T ∩ C` and the
recorded missing set is `T \ C`, so this restates the plan-emission block
of `find_optimal_base` with the winner held fixed. -/
def plan_from_base (L : List Layer) (C : Finset String) : List Layer × Finset String :=
  (plan_build L (target_set L ∩ C) (decide (target_set L \ C = ∅)),
   plan_reused L (target_set L ∩ C) (decide (target_set L \ C = ∅)))

/-! Python call-protocol model for the planner invocation made by
`BuildOrchestrator._build_layered`. -/

/-- Keyword arguments of a Python call are accepted exactly when every
keyword names a parameter of the callee (otherwise the call raises
`TypeError: unexpected keyword argument`). -/
def accepts_kwargs (params kwargs : List String) : Bool :=
  kwargs.all (fun k => params.contains k)

/-- Parameter names of `LayerReuseManager.find_optimal_base` in
`reuse.py` (`self` excluded, as the method is called bound). -/
def find_optimal_base_params : List String :=
  ["target_layers", "preferred_repo"]

/-- Keyword-argument names passed to `find_optimal_base` by
`BuildOrchestrator._build_layered` (`build_orchestrator.py`, the
non-force branch). -/
def build_layered_planner_kwargs : List String :=
  ["preferred_repo", "required_tag_prefix"]

/-! Builder embedding (`container_layer_builder.ContainerLayerBuilder.build_layer`,
commit / flatten tail). -/

/-- Runtime operations issued by the commit / flatten tail of
`build_layer`. -/
inductive RtOp where
  | commitSnapshot (withLabels : Bool)
  | removeParent
  | exportTar
  | importTar (withLabels : Bool)
  | stopContainer
deriving DecidableEq, Repr

/-- Embedding of lines 195-259 plus the `finally` block of
`build_layer`: attempt `docker commit` (with the label `--change` when
metadata items are present); when the commit fails, optionally remove the
parent image (on a max-depth message), then export the container
filesystem to a tar file and import it back at the target tag (again with
the label `--change`); the source container is stopped in the `finally`
block.  Returns the operation trace and whether the target tag was
produced (the import may itself fail). -/
def commit_phase (hasMeta commitOk importOk depthExceeded : Bool) :
    List RtOp × Bool :=
  if commitOk then
    ([RtOp.commitSnapshot hasMeta, RtOp.stopContainer], true)
  else
    ([RtOp.commitSnapshot hasMeta] ++
       (if depthExceeded then [RtOp.removeParent] else []) ++
       [RtOp.exportTar, RtOp.importTar hasMeta, RtOp.stopContainer],
     importOk)

/-! CLI embedding (`cli.cmd_build` and its `_collect_dep_items` helper). -/

/-- Script-install entry as read from the configuration mapping by
`_collect_dep_items`: only the name participates in the dependency items;
the body (`commands`), the `file` reference, and the copies are ignored by
the checksum. -/
structure CfgScript where
  name : String
  commands : List String := []
  file : Option String := none
  copies : List String := []
deriving DecidableEq, Repr

/-- Configuration mapping fields visited by `_collect_dep_items`: the base
image, the three top-level legacy package lists, the `heavy_setup` package
lists and script installs, and the future `layers` structure (APT and YUM
lists and named scripts). -/
structure BuildConfig where
  base_image : Option String := none
  apt_packages : List String := []
  yum_packages : List String := []
  pip_packages : List String := []
  heavy_apt_packages : List String := []
  heavy_yum_packages : List String := []
  heavy_pip_packages : List String := []
  heavy_script_installs : List CfgScript := []
  layers_apt : List String := []
  layers_yum : List String := []
  layers_scripts : List CfgScript := []
  image_name : String := "image"
  image_tag : String := "latest"
deriving DecidableEq, Repr

/-- Item contributed by a script name: `"script:{name}"`, skipped when the
name is missing (falsy in the source, modelled by the empty string). -/
def scriptItemOfName (n : String) : Option String :=
  if n = "" then none else some ("script:" ++ n)

/-- Item contributed by a script-install entry: only its name is read. -/
def scriptItem (s : CfgScript) : Option String :=
  scriptItemOfName s.name

/-- Embedding of the item-collection phase of `_collect_dep_items`, before
normalization: base image, top-level apt / yum / pip packages, heavy-setup
apt / yum / pip packages, heavy-setup script names, and the `layers`
structure, in source order. -/
def raw_dep_items (cfg : BuildConfig) : List String :=
  (match cfg.base_image with
   | some b => ["base:" ++ b]
   | none => []) ++
  cfg.apt_packages.map (fun p => "apt:" ++ p) ++
  cfg.yum_packages.map (fun p => "yum:" ++ p) ++
  cfg.pip_packages.map (fun p => "pip:" ++ p) ++
  cfg.heavy_apt_packages.map (fun p => "apt:" ++ p) ++
  cfg.heavy_yum_packages.map (fun p => "yum:" ++ p) ++
  cfg.heavy_pip_packages.map (fun p => "pip:" ++ p) ++
  cfg.heavy_script_installs.filterMap scriptItem ++
  cfg.layers_apt.map (fun p => "apt:" ++ p) ++
  cfg.layers_yum.map (fun p => "yum:" ++ p) ++
  cfg.layers_scripts.filterMap scriptItem

/-- Embedding of `sorted(set(items))`: the sorted list of the distinct
items. -/
def canonical_dep_items (cfg : BuildConfig) : List String :=
  (raw_dep_items cfg).toFinset.sort (fun a b => a ≤ b)

/-- Embedding of the dependency checksum: the SHA-256 hex digest (the
abstract parameter `h`) of the newline-joined canonical item list. -/
def dep_checksum (h : String → String) (cfg : BuildConfig) : String :=
  h (String.intercalate "\n" (canonical_dep_items cfg))

/-- Embedding of the sidecar checksum file name
`img_dependency_<image_name>_<image_tag>.checksum`. -/
def checksum_filename (cfg : BuildConfig) : String :=
  "img_dependency_" ++ cfg.image_name ++ "_" ++ cfg.image_tag ++ ".checksum"

/-- Embedding of the control flow of `cli.cmd_build` relevant to the
checksum short-circuit.  Arguments: the digest function, whether the
docker daemon preflight succeeds, whether the configuration file exists,
the parsed configuration mapping, the stripped content of the sidecar
checksum file (`none` when the file is missing or unreadable — the source
catches the read error and proceeds), whether the orchestrator build
succeeds, and the `--force-rebuild` flag.  Returns the exit code of
`cmd_build` and whether `orchestrator.build_image` was invoked. -/
def cmd_build (h : String → String) (dockerOk configExists : Bool)
    (cfg : BuildConfig) (sidecar : Option String)
    (buildSucceeds forceRebuild : Bool) : Int × Bool :=
  if !dockerOk then (1, false)
  else if !configExists then (1, false)
  else
    let checksum := dep_checksum h cfg
    let matched := !forceRebuild &&
      (match sidecar with
       | some old => old == checksum
       | none => false)
    if matched then (0, false)
    else (if buildSucceeds then 0 else 1, true)

/-! Concrete inputs used by the claim theorems below. -/

/-- BASE layer of a demo declaration (content is the declared base
image). -/
def baseLayer : Layer :=
  { name := "base", type := LayerType.base, content := "ubuntu:22.04" }

/-- APT layer installing curl. -/
def curlLayer : Layer :=
  { name := "curl", type := LayerType.apt, content := "curl" }

/-- APT layer installing git. -/
def gitLayer : Layer :=
  { name := "git", type := LayerType.apt, content := "git" }

/-- PIP layer installing requests. -/
def requestsLayer : Layer :=
  { name := "requests", type := LayerType.pip, content := "requests" }

/-- Candidate pool with one existing image that already contains
`apt:curl`. -/
def poolCurl : List Candidate :=
  [{ tag := "repo:tag1", packages := ["apt:curl"], present := true }]

/-- Candidate pool with one existing image containing `apt:curl` and
`apt:git`. -/
def poolCurlGit : List Candidate :=
  [{ tag := "repo:tag1", packages := ["apt:curl", "apt:git"], present := true }]

/-- Candidate pool whose only image lives in the repository `myrepo` under
the tag `zzz` (a tag that does not start with any base-tag-slug
prefix). -/
def poolWrongTag : List Candidate :=
  [{ tag := "myrepo:zzz", packages := ["apt:curl"], present := true }]

/-! Theorems.  Claim theorems are named `claimN...`; everything else is a
shared helper lemma. -/

/-- Claim C3 (counterexample): the claim states that every built layer is
flattened by export + import; but on the path where `docker commit`
succeeds (here with metadata labels present) the trace of the builder
contains the commit and no export and no import, so flattening is only a
fallback, not the production path of every layer. -/
theorem claim3_counterexample_commit_path_skips_flatten :
    commit_phase true true true false =
      ([RtOp.commitSnapshot true, RtOp.stopContainer], true) ∧
    RtOp.exportTar ∉ (commit_phase true true true false).1 ∧
    RtOp.importTar true ∉ (commit_phase true true true false).1 := by
  decide

/-- Claim C3 (amended): the builder produces each layer image with
`docker commit` (labels attached via `--change` when metadata is present);
only when the commit fails does it export the container filesystem to a
tar file and import it back at the target tag, again attaching the labels
on import; the commit-success trace contains no export and no import. -/
theorem claim3_amended_flatten_only_on_commit_failure :
    ∀ (hasMeta importOk depthExceeded : Bool),
      (RtOp.exportTar ∈ (commit_phase hasMeta false importOk depthExceeded).1 ∧
       RtOp.importTar hasMeta ∈ (commit_phase hasMeta false importOk depthExceeded).1 ∧
       (commit_phase hasMeta false importOk depthExceeded).2 = importOk) ∧
      (RtOp.exportTar ∉ (commit_phase hasMeta true importOk depthExceeded).1 ∧
       (commit_phase hasMeta true importOk depthExceeded).1.head? =
         some (RtOp.commitSnapshot hasMeta)) := by
  decide

/-- Claim C8 (counterexample): the claim states that every character of
the class `[A-Za-z0-9._-]` is left unchanged, in particular the dot; but
the source keeps only `isalnum` characters plus `-` and `_`, so the dot —
a member of the claimed class — is replaced by an underscore (as in the
base tag `22.04`, slugified to `22_04`). -/
theorem claim8_counterexample_dot_replaced :
    spec_slug_class '.' = true ∧ slugify "." = "_" ∧
    slugify "22.04" = "22_04" ∧ "22_04" ≠ "22.04" := by
  decide

/-- Claim C8 (amended): slugification maps each character failing the
test `isalnum or dash or underscore` to `_` and keeps the rest, so over
ASCII the kept class is exactly the class claimed by the spec MINUS the
dot (`[A-Za-z0-9_-]`): the second conjunct checks
`slug_keep = spec_slug_class && not dot` on every ASCII code point.
Non-ASCII characters follow the Unicode `isalnum` test of Python and are
kept when it accepts them, which is outside this ASCII model. -/
theorem claim8_amended_ascii_slugify :
    (∀ s : String, slugify s =
        String.mk (s.data.map (fun c => if slug_keep c then c else '_'))) ∧
    (∀ n : Nat, n < 128 →
        slug_keep (Char.ofNat n) =
          (spec_slug_class (Char.ofNat n) && Char.ofNat n != '.')) ∧
    (∀ c : Char, slug_keep c = true →
        slugify (String.mk [c]) = String.mk [c]) ∧
    (∀ c : Char, slug_keep c = false →
        slugify (String.mk [c]) = "_") := by
  refine ⟨fun s => rfl, by decide, fun c hc => ?_, fun c hc => ?_⟩
  · have hrw : slugify (String.mk [c]) =
        String.mk [if slug_keep c then c else '_'] := rfl
    rw [hrw, hc]
    simp
  · have hrw : slugify (String.mk [c]) =
        String.mk [if slug_keep c then c else '_'] := rfl
    rw [hrw, hc]
    simp

/-- Witness for the amended claim C8: the ASCII class equivalence at the
code point of the dot (46), a kept character `a`, and the replaced
character `.`. -/
theorem claim8_amended_ascii_slugify_witness :
    slug_keep (Char.ofNat 46) =
      (spec_slug_class (Char.ofNat 46) && Char.ofNat 46 != '.') ∧
    slugify (String.mk ['a']) = String.mk ['a'] ∧
    slugify (String.mk ['.']) = "_" :=
  ⟨claim8_amended_ascii_slugify.2.1 46 (by decide),
   claim8_amended_ascii_slugify.2.2.1 'a' (by decide),
   claim8_amended_ascii_slugify.2.2.2 '.' (by decide)⟩

/-- Claim C9: a layer built by the dataclass constructor (with the `hash`
field left to the post-init default) carries as `hash` the first 8 hex
characters of the SHA-256 hex digest of `"{type}:{name}:{content}"`, and
`calculate_hash` depends only on the `type`, `name` and `content` fields:
two layers agreeing on those three fields (whatever their `parent`,
`image_tag` or `dependencies`) get the same hash. -/
theorem claim9_layer_hash_determinism (h : String → String) :
    (∀ (name : String) (t : LayerType) (content : String)
        (parent image_tag : Option String) (deps : Option (List String)),
        (mkLayer h name t content parent image_tag deps none).hash =
          some ((h (t.value ++ ":" ++ name ++ ":" ++ content)).take 8)) ∧
    (∀ l1 l2 : Layer, l1.type = l2.type → l1.name = l2.name →
        l1.content = l2.content → calculate_hash h l1 = calculate_hash h l2) := by
  constructor
  · intro name t content parent image_tag deps
    rfl
  · intro l1 l2 ht hn hc
    unfold calculate_hash
    rw [ht, hn, hc]

/-- Witness for claim C9: two concrete layers differing only in the
`parent` field share their hash, and the post-init hash of a concrete
layer evaluates as stated. -/
theorem claim9_layer_hash_determinism_witness :
    calculate_hash (fun s => s) { name := "curl", type := LayerType.apt, content := "curl" } =
      calculate_hash (fun s => s)
        { name := "curl", type := LayerType.apt, content := "curl", parent := some "repo:x" } ∧
    (mkLayer (fun s => s) "curl" LayerType.apt "curl" none none none none).hash =
      some (("apt:curl:curl" : String).take 8) :=
  ⟨(claim9_layer_hash_determinism (fun s => s)).2 _ _ rfl rfl rfl,
   (claim9_layer_hash_determinism (fun s => s)).1 "curl" LayerType.apt "curl" none none none⟩

/-- Claim C1: the orchestrator intends to confine reuse to the preferred
repository and to tags starting with the base-tag-slug prefix, but the
call it makes passes the keyword `required_tag_prefix` which the planner
signature does not accept (the call raises `TypeError`, so every build
invocation with `force_rebuild` false fails); moreover the planner itself
filters candidates by repository only: a candidate in the preferred
repository whose tag starts with no required prefix is scored and even
selected as the base. -/
theorem claim1_planner_tag_prefix_not_enforced :
    accepts_kwargs find_optimal_base_params build_layered_planner_kwargs = false ∧
    "required_tag_prefix" ∈ build_layered_planner_kwargs ∧
    "required_tag_prefix" ∉ find_optimal_base_params ∧
    (find_optimal_base [baseLayer, curlLayer] (some "myrepo") poolWrongTag).base = "myrepo:zzz" ∧
    repoOf "myrepo:zzz" = "myrepo" ∧
    "zzz".startsWith "22.04__" = false := by
  decide

/-- Claim C2: the claim states that PIP layers contribute `pip:<spec>` to
the target set and that an unmatched PIP layer is rebuilt; in the source
the target loop only registers APT, YUM and SCRIPT layers and the plan
loop has no PIP branch, so for a declaration with one APT and one PIP
package and a candidate that already provides the APT item, the target
set lacks `pip:requests` and `find_optimal_base` returns an empty build
list with only the APT layer reused — the declared PIP layer is silently
dropped. -/
theorem claim2_pip_layers_dropped_by_planner :
    "pip:requests" ∉ target_set [baseLayer, curlLayer, requestsLayer] ∧
    requestsLayer ∈ all_target_layers [baseLayer, curlLayer, requestsLayer] ∧
    requestsLayer.type = LayerType.pip ∧
    "pip:requests" ∉ poolPackages poolCurl "repo:tag1" ∧
    (find_optimal_base [baseLayer, curlLayer, requestsLayer] none poolCurl).build = [] ∧
    (find_optimal_base [baseLayer, curlLayer, requestsLayer] none poolCurl).reused = {"curl"} := by
  decide

/-- Claim C5 (counterexample): against the same candidate pool (one image
holding `apt:curl` and `apt:git`) and the same winning base, adding the
package `git` to a declaration that held only `curl` raises the number of
reused layer names from 1 to 2, contradicting the claim that adding a
package never increases the reused count. -/
theorem claim5_counterexample_reused_count_grows :
    [baseLayer, curlLayer, gitLayer] = [baseLayer, curlLayer] ++ [gitLayer] ∧
    gitLayer.type = LayerType.apt ∧
    (find_optimal_base [baseLayer, curlLayer] none poolCurlGit).base =
      (find_optimal_base [baseLayer, curlLayer, gitLayer] none poolCurlGit).base ∧
    (find_optimal_base [baseLayer, curlLayer] none poolCurlGit).reused.card = 1 ∧
    (find_optimal_base [baseLayer, curlLayer, gitLayer] none poolCurlGit).reused.card = 2 := by
  decide

/-- Claim C7: with the docker preflight and the configuration file check
passed, if the sidecar checksum file is readable and its stripped content
equals the freshly computed dependency checksum and `force_rebuild` is
false, then `cmd_build` returns exit code 0 without invoking the
orchestrator build; and a missing or unreadable sidecar file (modelled by
`none`) always leads to the build being invoked. -/
theorem claim7_checksum_short_circuit (h : String → String) (cfg : BuildConfig)
    (buildSucceeds : Bool) :
    (∀ old : String, old = dep_checksum h cfg →
        cmd_build h true true cfg (some old) buildSucceeds false = (0, false)) ∧
    (cmd_build h true true cfg none buildSucceeds false).2 = true := by
  constructor
  · intro old hold
    subst hold
    simp [cmd_build]
  · simp [cmd_build]

/-- Witness for claim C7 at a concrete digest function and the default
configuration: a matching sidecar short-circuits with exit code 0 and no
build, a missing sidecar proceeds to the build. -/
theorem claim7_checksum_short_circuit_witness :
    cmd_build (fun _ => "d0") true true {} (some (dep_checksum (fun _ => "d0") {}))
        true false = (0, false) ∧
    (cmd_build (fun _ => "d0") true true {} none true false).2 = true :=
  ⟨(claim7_checksum_short_circuit (fun _ => "d0") {} true).1 _ rfl,
   (claim7_checksum_short_circuit (fun _ => "d0") {} true).2⟩

/-- Two configurations with the same raw item multiset up to set equality
share their dependency checksum: the checksum reads the raw items only
through `sorted(set(...))`. -/
theorem dep_checksum_congr_raw (h : String → String) {c1 c2 : BuildConfig}
    (hc : (raw_dep_items c1).toFinset = (raw_dep_items c2).toFinset) :
    dep_checksum h c1 = dep_checksum h c2 := by
  unfold dep_checksum canonical_dep_items
  rw [hc]

/-- Filtering script items only reads the name projection. -/
theorem filterMap_scriptItem (s : List CfgScript) :
    s.filterMap scriptItem = (s.map CfgScript.name).filterMap scriptItemOfName := by
  rw [List.filterMap_map]
  rfl

/-- Claim C6: the dependency checksum is the digest of the newline-joined
sorted de-duplicated item list; the canonical list is sorted and has no
duplicates; reordering a package list, declaring a package twice, and
changing the body of a script install without renaming it all leave the
checksum unchanged (script installs contribute `script:<name>` only). -/
theorem claim6_checksum_canonicalization (h : String → String) :
    (∀ cfg : BuildConfig, dep_checksum h cfg =
        h (String.intercalate "\n" ((raw_dep_items cfg).toFinset.sort (fun a b => a ≤ b)))) ∧
    (∀ cfg : BuildConfig, (canonical_dep_items cfg).Sorted (fun a b => a ≤ b) ∧
        (canonical_dep_items cfg).Nodup) ∧
    (∀ (cfg : BuildConfig) (l1 l2 : List String), l1.Perm l2 →
        dep_checksum h { cfg with heavy_apt_packages := l1 } =
          dep_checksum h { cfg with heavy_apt_packages := l2 }) ∧
    (∀ (cfg : BuildConfig) (x : String) (l : List String),
        dep_checksum h { cfg with heavy_apt_packages := x :: x :: l } =
          dep_checksum h { cfg with heavy_apt_packages := x :: l }) ∧
    (∀ (cfg : BuildConfig) (s1 s2 : List CfgScript),
        s1.map CfgScript.name = s2.map CfgScript.name →
        dep_checksum h { cfg with heavy_script_installs := s1 } =
          dep_checksum h { cfg with heavy_script_installs := s2 }) := by
  refine ⟨fun cfg => rfl, fun cfg => ⟨Finset.sort_sorted _ _, Finset.sort_nodup _ _⟩,
    fun cfg l1 l2 hperm => ?_, fun cfg x l => ?_, fun cfg s1 s2 hnames => ?_⟩
  · apply dep_checksum_congr_raw
    unfold raw_dep_items
    simp only [List.toFinset_append]
    rw [List.toFinset_eq_of_perm _ _ (hperm.map (fun p => "apt:" ++ p))]
  · apply dep_checksum_congr_raw
    unfold raw_dep_items
    simp [List.toFinset_append, List.map_cons, List.toFinset_cons]
  · apply dep_checksum_congr_raw
    unfold raw_dep_items
    simp only [List.toFinset_append]
    rw [filterMap_scriptItem s1, filterMap_scriptItem s2, hnames]

/-- Witness for claim C6: a concrete reordered package list and a concrete
script-body change leave the checksum unchanged. -/
theorem claim6_checksum_canonicalization_witness :
    dep_checksum (fun s => s) { heavy_apt_packages := ["git", "curl"] } =
      dep_checksum (fun s => s) { heavy_apt_packages := ["curl", "git"] } ∧
    dep_checksum (fun s => s)
        { heavy_script_installs := [{ name := "bootstrap", commands := ["echo a"] }] } =
      dep_checksum (fun s => s)
        { heavy_script_installs := [{ name := "bootstrap", commands := ["echo b"] }] } :=
  ⟨(claim6_checksum_canonicalization (fun s => s)).2.2.1 {} ["git", "curl"] ["curl", "git"]
      (by decide),
   (claim6_checksum_canonicalization (fun s => s)).2.2.2.2 {}
      [{ name := "bootstrap", commands := ["echo a"] }]
      [{ name := "bootstrap", commands := ["echo b"] }] rfl⟩

/-- Candidates whose package sets never meet the target set leave the
recorded best intersection empty throughout the scan. -/
theorem scan_bestInter_empty (T : Finset String) (pref : Option String) :
    ∀ (pool : List Candidate) (st : ScanState), st.bestInter = ∅ →
      (∀ c ∈ pool, T ∩ c.packages.toFinset = ∅) →
      (pool.foldl (evalCandidate T pref) st).bestInter = ∅ := by
  intro pool
  induction pool with
  | nil =>
    intro st h _
    simpa using h
  | cons c cs ih =>
    intro st hst hall
    simp only [List.foldl_cons]
    apply ih
    · unfold evalCandidate
      split
      · split
        · exact hst
        · split
          · simpa using hall c (by simp)
          · exact hst
      · exact hst
    · intro d hd
      exact hall d (by simp [hd])

/-- Claim C10: when no candidate shares an item with the target set, the
planner falls back to the content of the first input layer as base (all
non-BASE layers to build, nothing reused, no cleanup), and on an empty
layer list it falls back to the literal `ubuntu:22.04` with an empty build
list. -/
theorem claim10_no_overlap_falls_back_to_first_layer :
    (∀ (L : List Layer) (pref : Option String) (pool : List Candidate),
        (∀ c ∈ pool, target_set L ∩ c.packages.toFinset = ∅) →
        find_optimal_base L pref pool =
          { base := match L with
              | [] => "ubuntu:22.04"
              | l :: _ => l.content,
            reused := ∅,
            build := all_target_layers L,
            cleanup := { aptPackages := ∅, scriptNames := ∅ } }) ∧
    (∀ (pref : Option String) (pool : List Candidate),
        find_optimal_base [] pref pool =
          { base := "ubuntu:22.04", reused := ∅, build := [],
            cleanup := { aptPackages := ∅, scriptNames := ∅ } }) := by
  have main : ∀ (L : List Layer) (pref : Option String) (pool : List Candidate),
      (∀ c ∈ pool, target_set L ∩ c.packages.toFinset = ∅) →
      find_optimal_base L pref pool = fallback_plan L := by
    intro L pref pool hall
    have hscan : (pool.foldl (evalCandidate (target_set L) pref) initScan).bestInter = ∅ :=
      scan_bestInter_empty _ _ pool initScan rfl hall
    simp only [find_optimal_base]
    cases himg : (pool.foldl (evalCandidate (target_set L) pref) initScan).bestImage with
    | none => simp [himg]
    | some img => simp [himg, hscan]
  constructor
  · intro L pref pool hall
    exact main L pref pool hall
  · intro pref pool
    exact main [] pref pool (fun c _ => by simp [target_set, all_target_layers])

/-- Witness for claim C10: a pool whose only candidate provides an
unrelated package falls back to the declared base image (the content of
the BASE layer) and schedules the APT layer for building. -/
theorem claim10_no_overlap_falls_back_to_first_layer_witness :
    find_optimal_base [baseLayer, curlLayer] none
        [{ tag := "repo:tag1", packages := ["apt:wget"], present := true }] =
      { base := "ubuntu:22.04", reused := ∅, build := [curlLayer],
        cleanup := { aptPackages := ∅, scriptNames := ∅ } } :=
  ((claim10_no_overlap_falls_back_to_first_layer).1 [baseLayer, curlLayer] none
    [{ tag := "repo:tag1", packages := ["apt:wget"], present := true }]
    (by decide)).trans (by decide)

/-- Claim C4 (counterexample): dominance of complete matches fails for
large extra sets.  Against the target `{0}`, the candidate
`range 1015003` is a complete match (empty missing set) yet its score,
dragged down by its 1015002 extra items, is not higher than the score of
the empty candidate, whose missing set is nonempty. -/
theorem claim4_counterexample_dominance_fails_for_huge_extras :
    ({0} : Finset ℕ) \ Finset.range 1015003 = ∅ ∧
    (({0} : Finset ℕ) \ (∅ : Finset ℕ)).Nonempty ∧
    ¬ (scoreAgainst100 ({0} : Finset ℕ) (∅ : Finset ℕ) <
        scoreAgainst100 ({0} : Finset ℕ) (Finset.range 1015003)) := by
  have hsub : ({0} : Finset ℕ) ⊆ Finset.range 1015003 := by
    simp [Finset.singleton_subset_iff, Finset.mem_range]
  refine ⟨Finset.sdiff_eq_empty_iff_subset.mpr hsub, by simp, ?_⟩
  have h1 : ({0} : Finset ℕ) ∩ Finset.range 1015003 = {0} :=
    Finset.inter_eq_left.mpr hsub
  have h2 : ({0} : Finset ℕ) \ Finset.range 1015003 = ∅ :=
    Finset.sdiff_eq_empty_iff_subset.mpr hsub
  have h3 : (Finset.range 1015003 \ ({0} : Finset ℕ)).card = 1015002 := by
    rw [Finset.card_sdiff hsub]
    simp
  have h4 : ({0} : Finset ℕ) ∩ (∅ : Finset ℕ) = ∅ := Finset.inter_empty _
  have h5 : ({0} : Finset ℕ) \ (∅ : Finset ℕ) = {0} := Finset.sdiff_empty
  have h6 : ((∅ : Finset ℕ) \ ({0} : Finset ℕ)) = ∅ := Finset.empty_sdiff _
  unfold scoreAgainst100
  rw [h1, h2, h3, h4, h5, h6]
  simp only [Finset.card_singleton, Finset.card_empty]
  decide

/-- Claim C4 (amended): a candidate with an empty missing set outscores
every candidate with a nonempty missing set provided its extra set has
fewer than 1015000 items (at 1015000 extras and beyond, the 0.01-per-extra
penalty can cancel the 10000-point complete-match bonus plus the margin of
one reused item over one missing item). -/
theorem claim4_amended_dominance_bounded_extras {α : Type} [DecidableEq α]
    (T C1 C2 : Finset α) (hc : T ⊆ C1) (hm : (T \ C2).Nonempty)
    (he : (C1 \ T).card < 1015000) :
    scoreAgainst100 T C2 < scoreAgainst100 T C1 := by
  have h1 : T ∩ C1 = T := Finset.inter_eq_left.mpr hc
  have h2 : T \ C1 = ∅ := Finset.sdiff_eq_empty_iff_subset.mpr hc
  have h3 : (T ∩ C2).card + (T \ C2).card = T.card :=
    Finset.card_inter_add_card_sdiff T C2
  have h4 : 1 ≤ (T \ C2).card := Finset.card_pos.mpr hm
  unfold scoreAgainst100 scoreTimes100
  rw [h1, h2]
  simp only [Finset.card_empty]
  rw [if_pos trivial, if_neg (by omega : ¬ (T \ C2).card = 0)]
  omega

/-- Witness for the amended claim C4 at concrete sets: the exact match
`{0}` beats the empty candidate for the target `{0}`. -/
theorem claim4_amended_dominance_bounded_extras_witness :
    scoreAgainst100 ({0} : Finset ℕ) (∅ : Finset ℕ) <
      scoreAgainst100 ({0} : Finset ℕ) ({0} : Finset ℕ) :=
  claim4_amended_dominance_bounded_extras {0} {0} ∅ (by decide) (by decide) (by decide)

/-! Helper lemmas for the planner monotonicity claim. -/

/-- APT, YUM and SCRIPT layers always carry a dependency identifier. -/
theorem dep_item_typed_isSome {l : Layer}
    (h : l.type = LayerType.apt ∨ l.type = LayerType.yum ∨ l.type = LayerType.script) :
    (dep_item l).isSome := by
  rcases h with h | h | h <;> simp [dep_item, h]

/-- Non-BASE layers survive the `all_target_layers` filter component-wise
over an append. -/
theorem all_target_append (L1 L2 : List Layer) :
    all_target_layers (L1 ++ L2) = all_target_layers L1 ++ all_target_layers L2 := by
  simp [all_target_layers]

/-- A single non-BASE layer is its own target-layer list. -/
theorem all_target_single {P : Layer} (h : P.type ≠ LayerType.base) :
    all_target_layers [P] = [P] := by
  simp [all_target_layers, h]

/-- Membership in `all_target_layers` implies membership in the input. -/
theorem mem_of_all_target {L : List Layer} {l : Layer}
    (h : l ∈ all_target_layers L) : l ∈ L :=
  List.mem_of_mem_filter h

/-- Identifiers of target layers are members of the target set. -/
theorem mem_target_set_of {L : List Layer} {l : Layer} {id : String}
    (hl : l ∈ all_target_layers L) (hid : dep_item l = some id) :
    id ∈ target_set L := by
  unfold target_set
  rw [List.mem_toFinset, List.mem_filterMap]
  exact ⟨l, hl, hid⟩

/-- Appending one identified non-BASE layer adds exactly its identifier to
the target set. -/
theorem target_set_append {L : List Layer} {P : Layer} {p : String}
    (hPd : dep_item P = some p) (hPnb : P.type ≠ LayerType.base) :
    target_set (L ++ [P]) = target_set L ∪ {p} := by
  unfold target_set
  rw [all_target_append, all_target_single hPnb, List.filterMap_append]
  simp [hPd]

/-- Appending one identified non-BASE layer overrides the map entry of its
own identifier and leaves every other entry unchanged. -/
theorem lastLayerWith_append {L : List Layer} {P : Layer} {p : String}
    (hPd : dep_item P = some p) (hPnb : P.type ≠ LayerType.base) (id : String) :
    lastLayerWith (L ++ [P]) id = if id = p then some P else lastLayerWith L id := by
  unfold lastLayerWith
  rw [all_target_append, all_target_single hPnb, List.reverse_append,
    List.reverse_singleton, List.singleton_append]
  by_cases hid : id = p
  · subst hid
    rw [List.find?_cons_of_pos _ (by simp [hPd]), if_pos rfl]
  · rw [List.find?_cons_of_neg _ (by simp [hPd, Ne.symm hid]), if_neg hid]

/-- Identifiers in the target set have a map entry. -/
theorem lastLayerWith_isSome_of_mem {L : List Layer} {id : String}
    (h : id ∈ target_set L) : (lastLayerWith L id).isSome := by
  unfold target_set at h
  rw [List.mem_toFinset, List.mem_filterMap] at h
  obtain ⟨l, hl, hid⟩ := h
  unfold lastLayerWith
  rw [List.find?_isSome]
  exact ⟨l, List.mem_reverse.mpr hl, by simp [hid]⟩

/-- A map entry is a target layer carrying the looked-up identifier. -/
theorem lastLayerWith_eq_some {L : List Layer} {id : String} {l : Layer}
    (h : lastLayerWith L id = some l) :
    l ∈ all_target_layers L ∧ dep_item l = some id := by
  unfold lastLayerWith at h
  refine ⟨List.mem_reverse.mp (List.mem_of_find?_eq_some h), ?_⟩
  have hp := List.find?_some h
  simpa using hp

/-- The reused names of the complete-match branch are contained in the
image of the map-entry names over the target set, provided layers sharing
an identifier share their name. -/
theorem plan_reused_complete_subset (L : List Layer) (I : Finset String)
    (hcoh : ∀ l1 ∈ L, ∀ l2 ∈ L, dep_item l1 = dep_item l2 →
        (dep_item l1).isSome → l1.name = l2.name) :
    plan_reused L I true ⊆ (target_set L).image (nameOfLast L) := by
  intro n hn
  unfold plan_reused at hn
  rw [if_pos rfl] at hn
  rw [List.mem_toFinset, List.mem_map] at hn
  obtain ⟨l, hlf, hname⟩ := hn
  rw [List.mem_filter] at hlf
  have htyped : l.type = LayerType.apt ∨ l.type = LayerType.yum ∨ l.type = LayerType.script :=
    of_decide_eq_true hlf.2
  obtain ⟨id, hid⟩ := Option.isSome_iff_exists.mp (dep_item_typed_isSome htyped)
  have hidT : id ∈ target_set L := mem_target_set_of hlf.1 hid
  cases hlast : lastLayerWith L id with
  | none =>
    have := lastLayerWith_isSome_of_mem hidT
    rw [hlast] at this
    simp at this
  | some l2 =>
    have hl2 := lastLayerWith_eq_some hlast
    have hnames : l.name = l2.name :=
      hcoh l (mem_of_all_target hlf.1) l2 (mem_of_all_target hl2.1)
        (by rw [hid, hl2.2]) (by simp [hid])
    refine Finset.mem_image.mpr ⟨id, hidT, ?_⟩
    unfold nameOfLast
    rw [hlast]
    simp [← hnames, hname]

/-- Claim C5 (amended): with the chosen base candidate held fixed (package
set `C`), appending one new package layer `P` (APT or YUM, identifier not
yet in the target set) never decreases the length of `layers_to_build` and
never decreases the number of reused layer names — the new layer is built
when its item is outside `C` and reused when it is inside; the hypothesis
that layers sharing an identifier share their name holds for every
decomposer output, where package layer names are derived from the package
specifier. -/
theorem claim5_amended_fixed_base_monotonicity
    (L : List Layer) (C : Finset String) (P : Layer) (p : String)
    (hPt : P.type = LayerType.apt ∨ P.type = LayerType.yum)
    (hPd : dep_item P = some p)
    (hnew : p ∉ target_set L)
    (hcoh : ∀ l1 ∈ L, ∀ l2 ∈ L, dep_item l1 = dep_item l2 →
        (dep_item l1).isSome → l1.name = l2.name) :
    (plan_from_base L C).1.length ≤ (plan_from_base (L ++ [P]) C).1.length ∧
    (plan_from_base L C).2.card ≤ (plan_from_base (L ++ [P]) C).2.card := by
  have hPnb : P.type ≠ LayerType.base := by
    rcases hPt with h | h <;> simp [h]
  have hPnc : P.type ≠ LayerType.config := by
    rcases hPt with h | h <;> simp [h]
  have hT2 : target_set (L ++ [P]) = target_set L ∪ {p} := target_set_append hPd hPnb
  have hlast2 : ∀ id, id ≠ p → lastLayerWith (L ++ [P]) id = lastLayerWith L id := by
    intro id hid
    rw [lastLayerWith_append hPd hPnb, if_neg hid]
  by_cases hpC : p ∈ C
  · -- the new item is provided by the fixed base
    have hI2 : target_set (L ++ [P]) ∩ C = (target_set L ∩ C) ∪ {p} := by
      rw [hT2, Finset.union_inter_distrib_right]
      congr 1
      exact Finset.inter_eq_left.mpr (Finset.singleton_subset_iff.mpr hpC)
    have hM2 : target_set (L ++ [P]) \ C = target_set L \ C := by
      rw [hT2, Finset.union_sdiff_distrib]
      have hps : ({p} : Finset String) \ C = ∅ :=
        Finset.sdiff_eq_empty_iff_subset.mpr (Finset.singleton_subset_iff.mpr hpC)
      rw [hps, Finset.union_empty]
    by_cases hM : target_set L \ C = ∅
    · -- complete match before and after
      have hflag : decide (target_set L \ C = ∅) = true := decide_eq_true hM
      constructor
      · unfold plan_from_base plan_build
        rw [hM2, hflag, if_pos rfl, if_pos rfl]
        rw [all_target_append, all_target_single hPnb, List.filter_append]
        simp [hPnc]
      · unfold plan_from_base
        rw [hM2, hflag]
        unfold plan_reused
        rw [if_pos rfl, if_pos rfl]
        apply Finset.card_le_card
        rw [all_target_append, all_target_single hPnb, List.filter_append]
        have hPkeep : [P].filter (fun l =>
            decide (l.type = LayerType.apt ∨ l.type = LayerType.yum ∨
              l.type = LayerType.script)) = [P] := by
          rcases hPt with h | h <;> simp [h]
        rw [hPkeep, List.map_append, List.toFinset_append]
        exact Finset.subset_union_left
    · -- partial match before and after; the new item joins the intersection
      have hflag : decide (target_set L \ C = ∅) = false := decide_eq_false hM
      have hpI2 : p ∈ (target_set L ∩ C) ∪ {p} := by simp
      have hpred : ∀ l ∈ all_target_layers L,
          (decide (l.type = LayerType.config) ||
            (match dep_item l with
             | some id => decide (id ∉ (target_set L ∩ C) ∪ {p})
             | none => false)) =
          (decide (l.type = LayerType.config) ||
            (match dep_item l with
             | some id => decide (id ∉ target_set L ∩ C)
             | none => false)) := by
        intro l hl
        cases hd : dep_item l with
        | none => rfl
        | some id =>
          have hidT : id ∈ target_set L := mem_target_set_of hl hd
          have hne : id ≠ p := fun he => hnew (he ▸ hidT)
          simp [Finset.mem_union, hne]
      constructor
      · unfold plan_from_base plan_build
        rw [hM2, hI2, hflag, if_neg (by simp), if_neg (by simp)]
        rw [all_target_append, all_target_single hPnb, List.filter_append]
        have hPdrop : [P].filter (fun l =>
            decide (l.type = LayerType.config) ||
            (match dep_item l with
             | some id => decide (id ∉ (target_set L ∩ C) ∪ {p})
             | none => false)) = [] := by
          simp [hPnc, hPd, hpI2]
        rw [hPdrop, List.append_nil, List.filter_congr hpred]
      · unfold plan_from_base
        rw [hM2, hI2, hflag]
        unfold plan_reused
        rw [if_neg (by simp), if_neg (by simp)]
        apply Finset.card_le_card
        intro n hn
        rw [Finset.mem_image] at hn
        obtain ⟨id, hidf, hidn⟩ := hn
        rw [Finset.mem_filter] at hidf
        have hidT : id ∈ target_set L := Finset.mem_of_mem_inter_left hidf.1
        have hne : id ≠ p := fun he => hnew (he ▸ hidT)
        refine Finset.mem_image.mpr ⟨id, ?_, ?_⟩
        · rw [Finset.mem_filter]
          exact ⟨Finset.mem_union_left _ hidf.1, by rw [hlast2 id hne]; exact hidf.2⟩
        · unfold nameOfLast
          rw [hlast2 id hne]
          exact hidn
  · -- the new item is not provided by the fixed base
    have hI2 : target_set (L ++ [P]) ∩ C = target_set L ∩ C := by
      rw [hT2, Finset.union_inter_distrib_right]
      have hps : ({p} : Finset String) ∩ C = ∅ := by
        ext x
        simp only [Finset.mem_inter, Finset.mem_singleton, Finset.not_mem_empty,
          iff_false, not_and]
        rintro rfl
        exact hpC
      rw [hps, Finset.union_empty]
    have hM2 : target_set (L ++ [P]) \ C = (target_set L \ C) ∪ {p} := by
      rw [hT2, Finset.union_sdiff_distrib]
      congr 1
      ext x
      simp only [Finset.mem_sdiff, Finset.mem_singleton]
      constructor
      · rintro ⟨hx, _⟩
        exact hx
      · rintro rfl
        exact ⟨rfl, hpC⟩
    have hflag2 : decide ((target_set L \ C) ∪ {p} = ∅) = false :=
      decide_eq_false (Finset.Nonempty.ne_empty ⟨p, by simp⟩)
    have hPkeep : [P].filter (fun l =>
        decide (l.type = LayerType.config) ||
        (match dep_item l with
         | some id => decide (id ∉ target_set L ∩ C)
         | none => false)) = [P] := by
      simp [hPnc, hPd]
      exact Or.inr hpC
    by_cases hM : target_set L \ C = ∅
    · -- the append switches the plan from the complete branch to the partial branch
      have hTC : target_set L ⊆ C := Finset.sdiff_eq_empty_iff_subset.mp hM
      have hIT : target_set L ∩ C = target_set L := Finset.inter_eq_left.mpr hTC
      have hflag : decide (target_set L \ C = ∅) = true := decide_eq_true hM
      have hpredc : ∀ l ∈ all_target_layers L,
          (decide (l.type = LayerType.config) ||
            (match dep_item l with
             | some id => decide (id ∉ target_set L ∩ C)
             | none => false)) =
          decide (l.type = LayerType.config) := by
        intro l hl
        cases hd : dep_item l with
        | none => simp
        | some id =>
          have hidT : id ∈ target_set L := mem_target_set_of hl hd
          have : id ∈ target_set L ∩ C := hIT.symm ▸ hidT
          simp [this]
      constructor
      · unfold plan_from_base plan_build
        rw [hM2, hI2, hflag, hflag2, if_pos rfl, if_neg (by simp)]
        rw [all_target_append, all_target_single hPnb, List.filter_append, hPkeep,
          List.filter_congr hpredc]
        simp
      · unfold plan_from_base
        rw [hM2, hI2, hflag, hflag2]
        unfold plan_reused
        rw [if_pos rfl, if_neg (by simp)]
        have hsub1 := plan_reused_complete_subset L (target_set L ∩ C) hcoh
        unfold plan_reused at hsub1
        rw [if_pos rfl] at hsub1
        refine le_trans (Finset.card_le_card hsub1) (Finset.card_le_card ?_)
        intro n hn
        rw [Finset.mem_image] at hn
        obtain ⟨id, hidT, hidn⟩ := hn
        have hne : id ≠ p := fun he => hnew (he ▸ hidT)
        refine Finset.mem_image.mpr ⟨id, ?_, ?_⟩
        · rw [Finset.mem_filter]
          refine ⟨hIT.symm ▸ hidT, ?_⟩
          rw [hlast2 id hne]
          exact lastLayerWith_isSome_of_mem hidT
        · unfold nameOfLast
          rw [hlast2 id hne]
          exact hidn
    · -- partial match before and after; the new layer is appended to the build list
      have hflag : decide (target_set L \ C = ∅) = false := decide_eq_false hM
      constructor
      · unfold plan_from_base plan_build
        rw [hM2, hI2, hflag, hflag2, if_neg (by simp), if_neg (by simp)]
        rw [all_target_append, all_target_single hPnb, List.filter_append, hPkeep]
        simp
      · unfold plan_from_base
        rw [hM2, hI2, hflag, hflag2]
        unfold plan_reused
        rw [if_neg (by simp), if_neg (by simp)]
        apply Finset.card_le_card
        intro n hn
        rw [Finset.mem_image] at hn
        obtain ⟨id, hidf, hidn⟩ := hn
        rw [Finset.mem_filter] at hidf
        have hidT : id ∈ target_set L := Finset.mem_of_mem_inter_left hidf.1
        have hne : id ≠ p := fun he => hnew (he ▸ hidT)
        refine Finset.mem_image.mpr ⟨id, ?_, ?_⟩
        · rw [Finset.mem_filter]
          exact ⟨hidf.1, by rw [hlast2 id hne]; exact hidf.2⟩
        · unfold nameOfLast
          rw [hlast2 id hne]
          exact hidn

/-- Witness for the amended claim C5: appending the APT layer for `git`
to a declaration holding only `curl`, against a fixed base providing only
`apt:curl`, keeps the build-list length and the reused count
monotone. -/
theorem claim5_amended_fixed_base_monotonicity_witness :
    (plan_from_base [baseLayer, curlLayer] {"apt:curl"}).1.length ≤
      (plan_from_base ([baseLayer, curlLayer] ++ [gitLayer]) {"apt:curl"}).1.length ∧
    (plan_from_base [baseLayer, curlLayer] {"apt:curl"}).2.card ≤
      (plan_from_base ([baseLayer, curlLayer] ++ [gitLayer]) {"apt:curl"}).2.card :=
  claim5_amended_fixed_base_monotonicity [baseLayer, curlLayer] {"apt:curl"}
    gitLayer "apt:git" (Or.inl rfl) rfl (by decide) (by decide)

end DepImg
